import Mathlib

/-!
Verification of the octarine market-maker's concurrency and deduplication
engine: a shallow embedding, in Lean, of the retry/backoff module
(`utils/retry.ts`), the nonce-managing wallet (`services/wallet/index.ts`),
the processed-id dedup caches and their sweeps (`loops/bidding.ts`,
`loops/liquidation.ts`), the stream client's reconnect state machine
(`services/api/websocket.ts`), and the finalize call (`services/api/rfq.ts`),
together with theorems settling the specification's claims about them.

Numbers that the source holds as JS floats or BigNumber decimals are
embedded as rationals; millisecond timestamps as integers; JS `Map`s as
insertion-ordered association lists; fallible async calls as `Except`
values supplied by the environment.
-/

namespace Octarine

/-! ### JS string primitives

`String.prototype.includes` and `String.prototype.toLowerCase`, used by the
error classifiers and by `callTransform`. -/

/-- Does `pat` occur as a contiguous run starting at some position of `l`?
Mirrors JS `String.prototype.includes` scanning over the character list. -/
def includesFrom (pat : List Char) : List Char → Bool
  | [] => pat.isEmpty
  | c :: rest => List.isPrefixOf pat (c :: rest) || includesFrom pat rest

/-- JS `s.includes(pat)`. -/
def strIncludes (s pat : String) : Bool :=
  includesFrom pat.data s.data

/-- JS `s.toLowerCase()` (ASCII case folding, which is all the classifiers
compare against), computed characterwise over the string's data. -/
def strToLower (s : String) : String :=
  String.mk (s.data.map Char.toLower)

/-! ### Retry module (`utils/retry.ts`)

`RetryOptions`, the two default policies, the error classifiers, and an
embedding of `withRetry` that records the observable behaviour: the final
result, how many times the operation was invoked, and the delays waited
between attempts. -/

/-- A JS error value as the classifiers see it: either not an object
(`typeof error !== 'object'` or `null`), or an object with optional
`message` and `code` fields. -/
structure JsErrObj where
  message : Option String
  code : Option String
deriving DecidableEq, Repr

/-- `unknown` error: `none` models a non-object (or null) error value. -/
abbrev JsError := Option JsErrObj

/-- `RetryOptions` from `utils/retry.ts`; delays in milliseconds as rationals
(the multipliers are JS floats). `retryableErrors` is optional, as in the
source. -/
structure RetryOptions where
  maxAttempts : Nat
  initialDelayMs : ℚ
  maxDelayMs : ℚ
  backoffMultiplier : ℚ
  retryableErrors : Option (JsError → Bool)

/-- `isRetryableTxError` from `utils/retry.ts`: nonce errors, replacement-fee
errors, and the `NETWORK_ERROR` / `TIMEOUT` codes are retryable. -/
def isRetryableTxError : JsError → Bool
  | none => false
  | some err =>
    (match err.message with
     | some m => strIncludes (strToLower m) "nonce"
     | none => false)
    || (match err.message with
        | some m => strIncludes (strToLower m) "replacement fee"
        | none => false)
    || err.code == some "NETWORK_ERROR"
    || err.code == some "TIMEOUT"

/-- `isRetryableApiError` from `utils/retry.ts`. -/
def isRetryableApiError : JsError → Bool
  | none => false
  | some err =>
    if err.code == some "ECONNRESET" || err.code == some "ETIMEDOUT"
        || err.code == some "ENOTFOUND" then
      true
    else
      match err.message with
      | some m => strIncludes (strToLower m) "timeout"
      | none => false

/-- `API_RETRY_DEFAULTS` from `utils/retry.ts`. -/
def API_RETRY_DEFAULTS : RetryOptions :=
  { maxAttempts := 3
    initialDelayMs := 1000
    maxDelayMs := 10000
    backoffMultiplier := 2
    retryableErrors := some isRetryableApiError }

/-- `TX_RETRY_DEFAULTS` from `utils/retry.ts`. -/
def TX_RETRY_DEFAULTS : RetryOptions :=
  { maxAttempts := 2
    initialDelayMs := 2000
    maxDelayMs := 5000
    backoffMultiplier := 1.5
    retryableErrors := some isRetryableTxError }

/-- One iteration of `withRetry`'s `for` loop, from attempt number `attempt`
with current delay `currentDelay`. `fn i` is the outcome of the `i`-th
invocation of the operation. `fuel` counts the loop iterations still
available (`maxAttempts - attempt + 1` at every call; the zero case is
unreachable and stands for the dead `throw lastError` after the loop).
Returns the final outcome, the number of invocations performed from this
point on, and the delays waited. -/
def withRetryGo (fn : Nat → Except JsError α) (retryable : JsError → Bool)
    (maxAttempts : Nat) (mult cap : ℚ) :
    Nat → Nat → ℚ → Except JsError α × Nat × List ℚ
  | 0, _, _ => (.error none, 0, [])
  | fuel + 1, attempt, currentDelay =>
    match fn attempt with
    | .ok v => (.ok v, 1, [])
    | .error e =>
      if retryable e = true ∧ attempt < maxAttempts then
        let next := min (currentDelay * mult) cap
        let rest := withRetryGo fn retryable maxAttempts mult cap fuel (attempt + 1) next
        (rest.1, rest.2.1 + 1, currentDelay :: rest.2.2)
      else
        (.error e, 1, [])

/-- `withRetry` from `utils/retry.ts`: run the operation up to
`opts.maxAttempts` times; a failure classified retryable (default: all,
when no classifier is given) with attempts remaining waits the current
delay, grows it by the multiplier capped at `maxDelayMs`, and retries;
otherwise the error propagates. Result: final outcome, total number of
invocations, and the list of delays waited. -/
def withRetry (fn : Nat → Except JsError α) (opts : RetryOptions) :
    Except JsError α × Nat × List ℚ :=
  withRetryGo fn
    (fun e => (opts.retryableErrors.map (fun p => p e)).getD true)
    opts.maxAttempts opts.backoffMultiplier opts.maxDelayMs
    opts.maxAttempts 1 opts.initialDelayMs

/-! ### Wallet manager (`services/wallet/index.ts`)

`WalletManager` keeps `currentNonce : number | null` behind an
`async-mutex` `Mutex`; every read or write of it happens inside
`mutex.runExclusive`, so the observable effect of any set of concurrent
`executeTransaction` calls is that of running them one after another in
mutex-grant (FIFO) order. The embedding therefore gives the body of the
exclusive section as a state-transformer and folds it over the granted
order. -/

/-- The wallet's mutable nonce cache: `currentNonce : number | null`. -/
structure WalletState where
  currentNonce : Option Nat
deriving DecidableEq, Repr

/-- `syncNonce`: query `getTransactionCount(address, 'pending')` — the
ledger's pending-inclusive count, supplied here by the environment — and
cache it. -/
def syncNonce (ledgerPendingCount : Nat) (_s : WalletState) : WalletState :=
  ⟨some ledgerPendingCount⟩

/-- The nonce `executeTransaction` hands to its callback from state `s`:
the cached value, or the freshly synced ledger count when the cache is
`null`. -/
def noncePassed (s : WalletState) (ledgerPendingCount : Nat) : Nat :=
  (s.currentNonce).getD ledgerPendingCount

/-- The body of `WalletManager.executeTransaction`'s exclusive section:
sync the cache if `null`, invoke `fn` with the cached nonce; on success
cache `nonce + 1` and return the result, on failure clear the cache to
`null` and re-raise the error. -/
def executeTransaction (s : WalletState) (ledgerPendingCount : Nat)
    (fn : Nat → Except ε α) : WalletState × Except ε α :=
  let s1 := if s.currentNonce = none then syncNonce ledgerPendingCount s else s
  let nonce := (s1.currentNonce).getD 0
  match fn nonce with
  | .ok r => (⟨some (nonce + 1)⟩, .ok r)
  | .error e => (⟨none⟩, .error e)

/-- A batch of `executeTransaction` calls in mutex-grant order; each entry
says whether that call's callback succeeds. `ledgerPendingCount` is the
(unchanged) pending-inclusive count the ledger reports whenever the cache
must be re-synced. Returns the final cache state and the nonce passed to
each callback, in order. -/
def runCalls (s : WalletState) (ledgerPendingCount : Nat) :
    List Bool → WalletState × List Nat
  | [] => (s, [])
  | ok :: rest =>
    let fnc : Nat → Except Unit Unit := fun _ => if ok then .ok () else .error ()
    let step := executeTransaction s ledgerPendingCount fnc
    let tail := runCalls step.1 ledgerPendingCount rest
    (tail.1, noncePassed s ledgerPendingCount :: tail.2)

/-! ### Dedup caches and their sweeps (`loops/bidding.ts`, `loops/liquidation.ts`)

`processedRequests` / `processedLiquidations` are JS `Map<string, number>`s
(insertion-ordered, unique keys), embedded as association lists of
(id, timestamp). The two sweep functions are textually identical. -/

/-- A JS `Map<string, number>` of claimed ids to claim timestamps (ms),
in insertion order. -/
abbrev DedupMap := List (String × Int)

/-- `CLEANUP_INTERVAL_MS = 60 * 60 * 1000` (one hour), from both loops. -/
def CLEANUP_INTERVAL_MS : Int := 60 * 60 * 1000

/-- `MAX_PROCESSED_ENTRIES = 1000`, from both loops. -/
def MAX_PROCESSED_ENTRIES : Nat := 1000

/-- Ascending-by-timestamp comparison used by the sweep's
`.sort((a, b) => a[1] - b[1])`; JS `Array.prototype.sort` is stable, as is
insertion sort. -/
def tsLE (a b : String × Int) : Prop := a.2 ≤ b.2

instance : DecidableRel tsLE := fun a b => inferInstanceAs (Decidable (a.2 ≤ b.2))

instance : IsTotal (String × Int) tsLE := ⟨fun a b => Int.le_total a.2 b.2⟩

instance : IsTrans (String × Int) tsLE := ⟨fun _ _ _ h1 h2 => le_trans h1 h2⟩

/-- The sweep's first loop: delete every entry with
`timestamp < oneHourAgo` where `oneHourAgo = now - CLEANUP_INTERVAL_MS`
(deleting the entry under the iterator is safe on a JS `Map`, so the loop
is a filter). -/
def sweepPhase1 (m : DedupMap) (now : Int) : DedupMap :=
  m.filter (fun e => !(e.2 < now - CLEANUP_INTERVAL_MS))

/-- The ids the sweep's size-bound block deletes from map state `m1`: the
entries are sorted ascending by timestamp (`.sort((a, b) => a[1] - b[1])`,
stable, as is insertion sort) and the first `size - MAX_PROCESSED_ENTRIES`
of them are slated for removal. -/
def sweepEvictIds (m1 : DedupMap) : List String :=
  ((m1.insertionSort tsLE).take
    ((m1.insertionSort tsLE).length - MAX_PROCESSED_ENTRIES)).map Prod.fst

/-- The sweep's size-bound block: when more than `MAX_PROCESSED_ENTRIES`
entries remain, delete the ids of the oldest surplus entries from the map. -/
def sweepPhase2 (m1 : DedupMap) : DedupMap :=
  if m1.length > MAX_PROCESSED_ENTRIES then
    m1.filter (fun e => !((sweepEvictIds m1).contains e.1))
  else
    m1

/-- `cleanupProcessedRequests` from `loops/bidding.ts`: the TTL pass
followed by the size-bound pass. -/
def cleanupProcessedRequests (m : DedupMap) (now : Int) : DedupMap :=
  sweepPhase2 (sweepPhase1 m now)

/-- `cleanupProcessedLiquidations` from `loops/liquidation.ts` — textually
the same algorithm over `processedLiquidations`. -/
def cleanupProcessedLiquidations (m : DedupMap) (now : Int) : DedupMap :=
  cleanupProcessedRequests m now

/-! ### Stream client (`services/api/websocket.ts`)

`OctarineWebSocket` keeps `ws`, `isConnected`, `shouldReconnect` and
`reconnectTimeout`. The embedding keeps those four (the timer as a
pending/absent flag) plus a ghost log `armedDelays` recording the delay of
every reconnect timer ever armed, so "exactly one timer armed" is the
length of the log's growth. -/

/-- State of `OctarineWebSocket`: the transport handle (`ws !== null`),
`isConnected`, `shouldReconnect`, whether a reconnect timer is pending
(`reconnectTimeout !== null`), and the ghost log of armed timer delays. -/
structure WSState where
  wsPresent : Bool
  isConnected : Bool
  shouldReconnect : Bool
  reconnectPending : Bool
  armedDelays : List Int
deriving DecidableEq, Repr

/-- `scheduleReconnect`: if a timer is already pending do nothing, else arm
one timer with the configured fixed delay. -/
def scheduleReconnect (reconnectIntervalMs : Int) (s : WSState) : WSState :=
  if s.reconnectPending then s
  else { s with reconnectPending := true
                armedDelays := s.armedDelays ++ [reconnectIntervalMs] }

/-- The `ws.on('close', ...)` handler: mark disconnected, emit the
`disconnected` event (not modelled), and schedule a reconnect iff
`shouldReconnect` is set. -/
def onClose (reconnectIntervalMs : Int) (s : WSState) : WSState :=
  let s1 := { s with isConnected := false }
  if s1.shouldReconnect then scheduleReconnect reconnectIntervalMs s1 else s1

/-- The `ws.on('error', ...)` handler: logs and emits an `error` event
(and rejects a still-pending `connect()` promise); it mutates no client
state and never schedules a reconnect. -/
def onError (s : WSState) : WSState := s

/-- `disconnect()`: clear `shouldReconnect`, cancel any pending reconnect
timer, close and drop the transport. -/
def disconnect (s : WSState) : WSState :=
  { wsPresent := false
    isConnected := false
    shouldReconnect := false
    reconnectPending := false
    armedDelays := s.armedDelays }

/-- The synchronous head of `connect()`: a no-op when a transport already
exists, otherwise re-arm `shouldReconnect` and create the transport. -/
def connectStart (s : WSState) : WSState :=
  if s.wsPresent then s
  else { s with shouldReconnect := true, wsPresent := true }

/-- Can the reconnect timer callback run? Only while a timer is pending;
`clearTimeout` in `disconnect()` removes a pending timer before it fires. -/
def timerCanFire (s : WSState) : Bool := s.reconnectPending

/-- Transport-driven events that can hit the client while it is (or was)
connected: a remote close or a transport error. -/
inductive ChEvent where
  | close
  | errEvt
deriving DecidableEq, Repr

/-- Dispatch one transport event to its handler. -/
def stepCE (reconnectIntervalMs : Int) (s : WSState) : ChEvent → WSState
  | .close => onClose reconnectIntervalMs s
  | .errEvt => onError s

/-- Run a sequence of transport events. -/
def runCE (reconnectIntervalMs : Int) (s : WSState) (es : List ChEvent) : WSState :=
  es.foldl (stepCE reconnectIntervalMs) s

/-! #### Inbound message handling (`handleMessage`) -/

/-- What `JSON.parse` yields on an inbound frame: `malformed` when parsing
throws, otherwise the dynamically-read `message.type` tag (absent fields
read as `undefined`) and `message.data.chainId` where reachable. The
payload stands for the rest of `message.data`. -/
inductive InboundData where
  | malformed
  | wellFormed (msgType : Option String) (chainId : Option Int) (payload : String)
deriving DecidableEq, Repr

/-- The events `handleMessage` can emit (`connected` / `disconnected` /
`error` are emitted elsewhere). -/
inductive EmittedEvent where
  | rfqRequest (chainId : Option Int) (payload : String)
  | liquidation (chainId : Option Int) (payload : String)
  | bidAccepted (payload : String)
deriving DecidableEq, Repr

/-- The chain filter `this.config.supportedChains.includes(message.data.chainId)`;
an absent `data`/`chainId` either throws into the outer catch or fails the
membership test — in both cases no event is emitted. -/
def chainAllowed (supportedChains : List Int) : Option Int → Bool
  | some c => supportedChains.contains c
  | none => false

/-- `handleMessage` from `services/api/websocket.ts`: parse failures are
caught and logged; `rfq_request` / `liquidation` emit when the chain is
supported; `bid_accepted` always emits; `pong` and every other tag fall
through to logging only. It writes no client state and throws nothing. -/
def handleMessage (supportedChains : List Int) (d : InboundData) : List EmittedEvent :=
  match d with
  | .malformed => []
  | .wellFormed t cid payload =>
    if t = some "rfq_request" then
      if chainAllowed supportedChains cid then [.rfqRequest cid payload] else []
    else if t = some "liquidation" then
      if chainAllowed supportedChains cid then [.liquidation cid payload] else []
    else if t = some "bid_accepted" then
      [.bidAccepted payload]
    else
      []

/-- The recognized inbound type tags (the `switch` cases, `pong` included). -/
def recognizedTags : List (Option String) :=
  [some "rfq_request", some "liquidation", some "bid_accepted", some "pong"]

/-! ### Liquidation pipeline (`loops/liquidation.ts`)

`calculateLiquidationAmounts`, `shouldLiquidate` and the skip/submit control
flow of `processSingleLiquidation`. BigNumber decimal strings are embedded
as rationals; the `debtToRepay` / `collateralToSeize` fields, which the
source compares against the literal string `'0'`, as the decimal rendering
of their rounded integer value. -/

/-- BigNumber `.integerValue()` with the default `ROUND_HALF_UP` mode
(halves round away from zero). -/
def bigIntegerValue (q : ℚ) : Int :=
  if q < 0 then -(Int.floor (-q + 1 / 2)) else Int.floor (q + 1 / 2)

/-- `.integerValue().toString()`: the decimal string of the rounded value. -/
def ratToAmountString (q : ℚ) : String :=
  toString (bigIntegerValue q)

/-- An asset as the loop reads it: address and optional `decimals`. -/
structure AssetInfo where
  id : String
  decimals : Option Nat
deriving DecidableEq, Repr

/-- A borrowed/collateral position's asset wrapper. -/
structure PositionInfo where
  asset : AssetInfo
deriving DecidableEq, Repr

/-- A liquidation opportunity as the loop reads it. The
`collateralAmountThatCanBeSeized` field is `none` when missing (or an empty,
falsy string); the source additionally zero-checks its parsed value. -/
structure Liquidation where
  liqId : String
  chainId : Int
  healthFactor : ℚ
  borrowedAmount : ℚ
  collateralAmountThatCanBeSeized : Option ℚ
  borrowedPosition : PositionInfo
  collateralPosition : PositionInfo
  collateralAsset : String
  baseFeedPrice : ℚ
  exchangeProxy : String
deriving DecidableEq, Repr

/-- `LiquidationAmounts`; `profit` is kept as the rational value of the
source's decimal string (no claim inspects its rendering). -/
structure LiquidationAmounts where
  debtToRepay : String
  collateralToSeize : String
  profit : ℚ
  collateralDecimals : Nat
  decimals : Nat
deriving DecidableEq, Repr

/-- The loop constant `MAX_LIQUIDATION_RATIO = 0.8`. -/
def maxLiquidationRatio : ℚ := 0.8

/-- The slice of `AppConfig` the liquidation path reads. -/
structure AppConfig where
  supportedChains : List Int
  marketMakerAddress : String
  liquidationSpread : ℚ
deriving DecidableEq, Repr

/-- `calculateLiquidationAmounts` from `loops/liquidation.ts`: missing or
zero seizable collateral yields the all-zero record; otherwise repay and
seize 80% of debt and collateral, scaled into base units by each asset's
decimals (default 6) and rounded. -/
def calculateLiquidationAmounts (l : Liquidation) : LiquidationAmounts :=
  let zeroCase : LiquidationAmounts :=
    { debtToRepay := "0", collateralToSeize := "0", profit := 0
      collateralDecimals := 6, decimals := 6 }
  match l.collateralAmountThatCanBeSeized with
  | none => zeroCase
  | some collateralAmount =>
    if collateralAmount = 0 then zeroCase
    else
      let debtToRepay := l.borrowedAmount * maxLiquidationRatio
      let collateralToSeize := collateralAmount * maxLiquidationRatio
      let decimals := (l.borrowedPosition.asset.decimals).getD 6
      let collateralDecimals := (l.collateralPosition.asset.decimals).getD 6
      let profit := collateralToSeize - debtToRepay
      { debtToRepay := ratToAmountString (debtToRepay * (10 : ℚ) ^ decimals)
        collateralToSeize :=
          ratToAmountString (collateralToSeize * (10 : ℚ) ^ collateralDecimals)
        profit := profit
        collateralDecimals := collateralDecimals
        decimals := decimals }

/-- `shouldLiquidate` from `loops/liquidation.ts`: skip healthy positions
(`healthFactor >= 1.0`), unsupported chains, and positions with nothing to
repay or seize. -/
def shouldLiquidate (l : Liquidation) (amounts : LiquidationAmounts)
    (cfg : AppConfig) : Bool :=
  if 1 ≤ l.healthFactor then false
  else if !(cfg.supportedChains.contains l.chainId) then false
  else if amounts.debtToRepay = "0" || amounts.collateralToSeize = "0" then false
  else true

/-- The externally visible side effects of `processSingleLiquidation`'s
submission branch, in program order. -/
inductive LiqAction where
  | approve
  | sign
  | submit
deriving DecidableEq, Repr

/-- The control flow of `processSingleLiquidation`: compute amounts, return
early when `shouldLiquidate` declines, otherwise approve the token, sign the
order, and call `triggerLiquidation`. -/
def processSingleLiquidation (l : Liquidation) (cfg : AppConfig) : List LiqAction :=
  let amounts := calculateLiquidationAmounts l
  if !(shouldLiquidate l amounts cfg) then []
  else [.approve, .sign, .submit]

/-! ### Finalize call (`services/api/rfq.ts`, `callTransform`) -/

/-- A thrown JS value as `callTransform`'s catch inspects it: whether it is
an `Error` instance, and its `message`. -/
structure ThrownValue where
  isErrorInstance : Bool
  message : String
deriving DecidableEq, Repr

/-- The `/octarine/transform` response. -/
structure TransformResult where
  txHash : Option String
deriving DecidableEq, Repr

/-- `callTransform` from `services/api/rfq.ts`: POST the transform; when the
call throws an `Error` whose message contains `'Already executed'`, return
an empty success object instead; re-raise anything else unchanged. The
underlying POST's outcome is supplied by the environment. -/
def callTransform (apiOutcome : Except ThrownValue TransformResult) :
    Except ThrownValue TransformResult :=
  match apiOutcome with
  | .ok r => .ok r
  | .error e =>
    if e.isErrorInstance && strIncludes e.message "Already executed" then
      .ok { txHash := none }
    else
      .error e

/-! ### Dual-channel ingestion of one opportunity id (`loops/bidding.ts`)

For a single eligible request id delivered through both the polling loop
and the stream handler, each channel runs, with suspension points between
them, the same three atomic phases:

  check — `processedRequests.has(id)`; if present, stop;
  work  — `processSingleRequest` (for an eligible request this performs
           the submission attempt, and it resolves even on failure since
           it catches internally);
  mark  — `processedRequests.set(id, Date.now())` (poll: after the await;
           stream: in the `.then` continuation).

`processSingleRequest` suspends at its awaits, so the other channel's
phases can interleave between one channel's check and its mark. A
schedule is the order in which the two channels take their next phase. -/

/-- The two ingestion channels. -/
inductive Chan where
  | poll
  | streamCh
deriving DecidableEq, Repr

/-- Joint state: whether the id has been marked processed, each channel's
program counter (0 = before check, 1 = before work, 2 = before mark,
3 = done), and how many submission attempts have happened. -/
structure IngestState where
  claimed : Bool
  pcPoll : Nat
  pcStream : Nat
  submissions : Nat
deriving DecidableEq, Repr

/-- One channel takes its next phase: check skips when the id is already
marked; work performs the submission attempt; mark sets the id. Returns
the new program counter, the new claimed flag, and the submissions
increment. -/
def chanPhase (pc : Nat) (claimed : Bool) : Nat × Bool × Nat :=
  match pc with
  | 0 => if claimed then (3, claimed, 0) else (1, claimed, 0)
  | 1 => (2, claimed, 1)
  | 2 => (3, true, 0)
  | _ => (pc, claimed, 0)

/-- Advance the joint state by one scheduled channel. -/
def ingestStep (s : IngestState) : Chan → IngestState
  | .poll =>
    let r := chanPhase s.pcPoll s.claimed
    { s with pcPoll := r.1, claimed := r.2.1, submissions := s.submissions + r.2.2 }
  | .streamCh =>
    let r := chanPhase s.pcStream s.claimed
    { s with pcStream := r.1, claimed := r.2.1, submissions := s.submissions + r.2.2 }

/-- Run a schedule from the initial state (id unseen, both channels about
to check, no submissions yet). -/
def runSchedule (sched : List Chan) : IngestState :=
  sched.foldl ingestStep ⟨false, 0, 0, 0⟩

/-! ## Claims -/

/-- C1: the claim demands exactly one submission attempt for an id
delivered through both channels, with the dedup claim happening before any
work. On the code as written, both channels mark the id only after
`processSingleRequest` resolves, so the interleaving in which each channel
passes its `has(id)` check before either has marked performs two
submission attempts; and already after a single channel's check-and-work
phases a submission has happened while the id is still unmarked, so the
claim (mark) does not precede work. -/
theorem C1_dual_delivery_two_submissions :
    (runSchedule [.poll, .streamCh, .poll, .streamCh, .poll, .streamCh]).submissions = 2 ∧
    (runSchedule [.poll, .poll]).submissions = 1 ∧
    (runSchedule [.poll, .poll]).claimed = false := by
  decide

/-- C2 (counterexample): two `executeTransaction` calls from cached nonce 5
where the first callback fails: the failure clears the cache, the second
call re-syncs from the ledger (still reporting 5), and both callbacks
receive nonce 5 — a repeat, not the set 5, 6. -/
theorem C2_failure_nonce_repeat_counterexample :
    (runCalls ⟨some 5⟩ 5 [false, true]).2 = [5, 5] ∧
    ¬ (runCalls ⟨some 5⟩ 5 [false, true]).2.Nodup := by
  decide

/-- C2 (amended): when every callback succeeds, the N serialized
`executeTransaction` calls from cached base receive exactly the nonces
base, base+1, …, base+N−1 — no repeats, no gaps, and the ledger is never
consulted — and the cache ends at base+N. (After a failure the cache is
cleared and the next nonce comes from a fresh ledger query instead.) -/
theorem C2_all_success_nonces_exact (base ledger : Nat) (calls : List Bool)
    (h : ∀ c ∈ calls, c = true) :
    (runCalls ⟨some base⟩ ledger calls).2 = List.range' base calls.length ∧
    (runCalls ⟨some base⟩ ledger calls).1 = ⟨some (base + calls.length)⟩ ∧
    ((runCalls ⟨some base⟩ ledger calls).2).Nodup := by
  induction calls generalizing base with
  | nil => simp [runCalls]
  | cons c rest ih =>
    have hc : c = true := h c (List.mem_cons_self c rest)
    have hrest : ∀ x ∈ rest, x = true := fun x hx => h x (List.mem_cons_of_mem c hx)
    subst hc
    obtain ⟨h1, h2, h3⟩ := ih (base + 1) hrest
    have hstep :
        runCalls ⟨some base⟩ ledger (true :: rest) =
          ((runCalls ⟨some (base + 1)⟩ ledger rest).1,
            base :: (runCalls ⟨some (base + 1)⟩ ledger rest).2) := rfl
    rw [hstep]
    refine ⟨?_, ?_, ?_⟩
    · rw [h1, List.length_cons, List.range'_succ]
    · rw [h2]
      have hlen : base + 1 + rest.length = base + (rest.length + 1) := by omega
      rw [hlen]
      rfl
    · show (base :: (runCalls ⟨some (base + 1)⟩ ledger rest).2).Nodup
      rw [h1, ← List.range'_succ base rest.length 1]
      exact List.nodup_range' base (rest.length + 1)

/-- C2 witness: three all-success calls from base 5 receive nonces 5, 6, 7. -/
theorem C2_all_success_nonces_exact_witness :
    (runCalls ⟨some 5⟩ 9 [true, true, true]).2 = List.range' 5 3 ∧
    (runCalls ⟨some 5⟩ 9 [true, true, true]).1 = ⟨some (5 + 3)⟩ ∧
    ((runCalls ⟨some 5⟩ 9 [true, true, true]).2).Nodup :=
  C2_all_success_nonces_exact 5 9 [true, true, true] (by decide)

/-- C3: `executeTransaction`'s contract — an unknown (null) cache is
resolved by the ledger's pending-inclusive count; the callback receives
the cached nonce; success caches nonce+1 and returns the callback's
result; failure clears the cache to null and re-raises the same error. -/
theorem C3_executeTransaction_contract {ε α : Type} (s : WalletState) (ledger : Nat)
    (fn : Nat → Except ε α) :
    (s.currentNonce = none → noncePassed s ledger = ledger) ∧
    (∀ n, s.currentNonce = some n → noncePassed s ledger = n) ∧
    (∀ r, fn (noncePassed s ledger) = .ok r →
       executeTransaction s ledger fn = (⟨some (noncePassed s ledger + 1)⟩, .ok r)) ∧
    (∀ e, fn (noncePassed s ledger) = .error e →
       executeTransaction s ledger fn = (⟨none⟩, .error e)) := by
  obtain ⟨cn⟩ := s
  cases cn with
  | none =>
    refine ⟨fun _ => rfl, by simp [noncePassed], ?_, ?_⟩
    · intro r hr
      simp [executeTransaction, syncNonce, noncePassed] at hr ⊢
      rw [hr]
    · intro e he
      simp [executeTransaction, syncNonce, noncePassed] at he ⊢
      rw [he]
  | some n =>
    refine ⟨by simp, by simp [noncePassed], ?_, ?_⟩
    · intro r hr
      simp [executeTransaction, noncePassed] at hr ⊢
      rw [hr]
    · intro e he
      simp [executeTransaction, noncePassed] at he ⊢
      rw [he]

/-- C3 witness: a null cache syncs from the ledger (7), hands 7 to the
callback and caches 8 on success; a cached 4 whose callback fails ends
with a null cache and the same error. -/
theorem C3_executeTransaction_contract_witness :
    executeTransaction (⟨none⟩ : WalletState) 7 (fun n => (.ok n : Except Unit Nat)) =
      (⟨some 8⟩, .ok 7) ∧
    executeTransaction (⟨some 4⟩ : WalletState) 7 (fun _ => (.error () : Except Unit Nat)) =
      (⟨none⟩, .error ()) := by
  constructor
  · exact (C3_executeTransaction_contract ⟨none⟩ 7 _).2.2.1 7 rfl
  · exact (C3_executeTransaction_contract ⟨some 4⟩ 7 _).2.2.2 () rfl

/-- C5 (counterexample): `TX_RETRY_DEFAULTS.maxAttempts` is 2, not the
claimed 3, and `isRetryableTxError` also classifies a bare
`NETWORK_ERROR`-coded failure (no message at all, so neither a
sequence-number conflict nor an underpriced replacement) as retryable. -/
theorem C5_submission_policy_counterexample :
    TX_RETRY_DEFAULTS.maxAttempts = 2 ∧ ¬ TX_RETRY_DEFAULTS.maxAttempts = 3 ∧
    isRetryableTxError (some { message := none, code := some "NETWORK_ERROR" }) = true := by
  refine ⟨rfl, by decide, by decide⟩

/-- C9: `callTransform` reports an `Error` whose message contains
"Already executed" as success with an empty result, and re-raises every
other thrown value unchanged (successes pass through). -/
theorem C9_callTransform_already_executed :
    (∀ e : ThrownValue, e.isErrorInstance = true →
       strIncludes e.message "Already executed" = true →
       callTransform (.error e) = .ok { txHash := none }) ∧
    (∀ e : ThrownValue,
       (e.isErrorInstance && strIncludes e.message "Already executed") = false →
       callTransform (.error e) = .error e) ∧
    (∀ r, callTransform (.ok r) = .ok r) := by
  refine ⟨?_, ?_, fun r => rfl⟩
  · intro e h1 h2
    simp [callTransform, h1, h2]
  · intro e h
    simp [callTransform, h]

/-- C9 witness: a second finalize failing with "Already executed" is
reported as success; an unrelated error propagates unchanged. -/
theorem C9_callTransform_already_executed_witness :
    callTransform (.error ⟨true, "Error: Already executed"⟩) = .ok { txHash := none } ∧
    callTransform (.error ⟨true, "insufficient funds"⟩) =
      .error ⟨true, "insufficient funds"⟩ := by
  constructor
  · exact C9_callTransform_already_executed.1 ⟨true, "Error: Already executed"⟩ rfl (by decide)
  · exact C9_callTransform_already_executed.2.1 ⟨true, "insufficient funds"⟩ (by decide)

/-- C10: a liquidation with missing or zero seizable collateral gets the
all-zero amounts, `shouldLiquidate` declines it (whatever its health
factor or chain), and `processSingleLiquidation` returns before the
approve/sign/submit branch. -/
theorem C10_zero_collateral_no_submission (l : Liquidation) (cfg : AppConfig)
    (h : l.collateralAmountThatCanBeSeized = none ∨
         l.collateralAmountThatCanBeSeized = some 0) :
    (calculateLiquidationAmounts l).debtToRepay = "0" ∧
    (calculateLiquidationAmounts l).collateralToSeize = "0" ∧
    shouldLiquidate l (calculateLiquidationAmounts l) cfg = false ∧
    processSingleLiquidation l cfg = [] := by
  have hz : calculateLiquidationAmounts l =
      { debtToRepay := "0", collateralToSeize := "0", profit := 0
        collateralDecimals := 6, decimals := 6 } := by
    rcases h with h | h <;> simp [calculateLiquidationAmounts, h]
  have hs : shouldLiquidate l (calculateLiquidationAmounts l) cfg = false := by
    rw [hz]
    unfold shouldLiquidate
    split
    · rfl
    · split
      · rfl
      · simp
  refine ⟨by rw [hz], by rw [hz], hs, ?_⟩
  unfold processSingleLiquidation
  simp [hs]

/-- C10 witness: a concrete underwater position on a supported chain with
zero seizable collateral is skipped entirely. -/
theorem C10_zero_collateral_no_submission_witness :
    (calculateLiquidationAmounts
        { liqId := "L1", chainId := 98866, healthFactor := 1 / 2, borrowedAmount := 100
          collateralAmountThatCanBeSeized := some 0
          borrowedPosition := ⟨⟨"0xdebt", some 6⟩⟩
          collateralPosition := ⟨⟨"0xcoll", some 6⟩⟩
          collateralAsset := "0xcoll", baseFeedPrice := 1
          exchangeProxy := "0xproxy" }).debtToRepay = "0" ∧
    (calculateLiquidationAmounts
        { liqId := "L1", chainId := 98866, healthFactor := 1 / 2, borrowedAmount := 100
          collateralAmountThatCanBeSeized := some 0
          borrowedPosition := ⟨⟨"0xdebt", some 6⟩⟩
          collateralPosition := ⟨⟨"0xcoll", some 6⟩⟩
          collateralAsset := "0xcoll", baseFeedPrice := 1
          exchangeProxy := "0xproxy" }).collateralToSeize = "0" ∧
    shouldLiquidate
        { liqId := "L1", chainId := 98866, healthFactor := 1 / 2, borrowedAmount := 100
          collateralAmountThatCanBeSeized := some 0
          borrowedPosition := ⟨⟨"0xdebt", some 6⟩⟩
          collateralPosition := ⟨⟨"0xcoll", some 6⟩⟩
          collateralAsset := "0xcoll", baseFeedPrice := 1
          exchangeProxy := "0xproxy" }
        (calculateLiquidationAmounts
          { liqId := "L1", chainId := 98866, healthFactor := 1 / 2, borrowedAmount := 100
            collateralAmountThatCanBeSeized := some 0
            borrowedPosition := ⟨⟨"0xdebt", some 6⟩⟩
            collateralPosition := ⟨⟨"0xcoll", some 6⟩⟩
            collateralAsset := "0xcoll", baseFeedPrice := 1
            exchangeProxy := "0xproxy" })
        ⟨[98866], "0xmm", 99 / 100⟩ = false ∧
    processSingleLiquidation
        { liqId := "L1", chainId := 98866, healthFactor := 1 / 2, borrowedAmount := 100
          collateralAmountThatCanBeSeized := some 0
          borrowedPosition := ⟨⟨"0xdebt", some 6⟩⟩
          collateralPosition := ⟨⟨"0xcoll", some 6⟩⟩
          collateralAsset := "0xcoll", baseFeedPrice := 1
          exchangeProxy := "0xproxy" }
        ⟨[98866], "0xmm", 99 / 100⟩ = [] :=
  C10_zero_collateral_no_submission _ _ (Or.inr rfl)

/-- While a reconnect timer is pending, one more transport event (close or
error) arms nothing new and leaves the timer pending. -/
lemma stepCE_pending_invariant (delayMs : Int) (s : WSState) (e : ChEvent)
    (h : s.reconnectPending = true) :
    (stepCE delayMs s e).reconnectPending = true ∧
    (stepCE delayMs s e).armedDelays = s.armedDelays := by
  cases e with
  | close =>
    cases hsr : s.shouldReconnect <;>
      simp [stepCE, onClose, scheduleReconnect, h, hsr]
  | errEvt => exact ⟨h, rfl⟩

/-- While a reconnect timer is pending, any run of transport events arms
nothing new and leaves the timer pending. -/
lemma runCE_pending_invariant (delayMs : Int) (es : List ChEvent) (s : WSState)
    (h : s.reconnectPending = true) :
    (runCE delayMs s es).reconnectPending = true ∧
    (runCE delayMs s es).armedDelays = s.armedDelays := by
  induction es generalizing s with
  | nil => exact ⟨h, rfl⟩
  | cons e rest ih =>
    obtain ⟨h1, h2⟩ := stepCE_pending_invariant delayMs s e h
    obtain ⟨h3, h4⟩ := ih (stepCE delayMs s e) h1
    exact ⟨h3, h4.trans h2⟩

/-- With auto-reconnect suppressed, one transport event keeps it
suppressed, arms nothing, and leaves the pending flag as it is. -/
lemma stepCE_suppressed_invariant (delayMs : Int) (s : WSState) (e : ChEvent)
    (h : s.shouldReconnect = false) :
    (stepCE delayMs s e).shouldReconnect = false ∧
    (stepCE delayMs s e).reconnectPending = s.reconnectPending ∧
    (stepCE delayMs s e).armedDelays = s.armedDelays := by
  cases e with
  | close => simp [stepCE, onClose, h]
  | errEvt => exact ⟨h, rfl, rfl⟩

/-- With auto-reconnect suppressed, any run of transport events keeps it
suppressed, arms nothing, and leaves the pending flag as it is. -/
lemma runCE_suppressed_invariant (delayMs : Int) (es : List ChEvent) (s : WSState)
    (h : s.shouldReconnect = false) :
    (runCE delayMs s es).shouldReconnect = false ∧
    (runCE delayMs s es).reconnectPending = s.reconnectPending ∧
    (runCE delayMs s es).armedDelays = s.armedDelays := by
  induction es generalizing s with
  | nil => exact ⟨h, rfl, rfl⟩
  | cons e rest ih =>
    obtain ⟨h1, h2, h3⟩ := stepCE_suppressed_invariant delayMs s e h
    obtain ⟨h4, h5, h6⟩ := ih (stepCE delayMs s e) h1
    exact ⟨h4, h5.trans h2, h6.trans h3⟩

/-- C7: an unexpected close with auto-reconnect on and no timer pending
arms exactly one timer with the fixed configured delay; further closes or
errors while it is pending arm nothing; `disconnect()` is idempotent,
cancels the pending timer (so it can never fire), and suppresses every
later automatic reconnection — no transport event after `disconnect()`
arms a timer — until `connect()` re-arms `shouldReconnect`. -/
theorem C7_reconnect_timer_and_disconnect (delayMs : Int) (s : WSState)
    (es : List ChEvent) :
    (s.shouldReconnect = true → s.reconnectPending = false →
       (onClose delayMs s).reconnectPending = true ∧
       (onClose delayMs s).armedDelays = s.armedDelays ++ [delayMs]) ∧
    (s.reconnectPending = true →
       (runCE delayMs s es).reconnectPending = true ∧
       (runCE delayMs s es).armedDelays = s.armedDelays) ∧
    disconnect (disconnect s) = disconnect s ∧
    timerCanFire (disconnect s) = false ∧
    (runCE delayMs (disconnect s) es).reconnectPending = false ∧
    (runCE delayMs (disconnect s) es).armedDelays = s.armedDelays ∧
    (connectStart (disconnect s)).shouldReconnect = true := by
  refine ⟨?_, ?_, rfl, rfl, ?_, ?_, rfl⟩
  · intro h1 h2
    constructor <;> simp [onClose, scheduleReconnect, h1, h2]
  · exact runCE_pending_invariant delayMs es s
  · exact ((runCE_suppressed_invariant delayMs es (disconnect s) rfl).2.1).trans rfl
  · exact ((runCE_suppressed_invariant delayMs es (disconnect s) rfl).2.2).trans rfl

/-- C7 witness: from a connected client (no timer pending), a close arms
one 5000 ms timer; closes and errors while it is pending arm nothing;
`disconnect()` is idempotent, defuses the timer, and later transport
events arm nothing. -/
theorem C7_reconnect_timer_and_disconnect_witness :
    (onClose 5000 ⟨true, true, true, false, []⟩).reconnectPending = true ∧
    (onClose 5000 ⟨true, true, true, false, []⟩).armedDelays = [5000] ∧
    (runCE 5000 ⟨true, false, true, true, [5000]⟩ [.close, .errEvt, .close]).armedDelays
      = [5000] ∧
    disconnect (disconnect ⟨true, true, true, false, []⟩) =
      disconnect ⟨true, true, true, false, []⟩ ∧
    timerCanFire (disconnect ⟨true, false, true, true, [5000]⟩) = false ∧
    (runCE 5000 (disconnect ⟨true, false, true, true, [5000]⟩)
        [.close, .errEvt, .close]).reconnectPending = false := by
  refine ⟨?_, ?_, ?_, ?_, ?_, ?_⟩
  · exact ((C7_reconnect_timer_and_disconnect 5000 ⟨true, true, true, false, []⟩ []).1
      rfl rfl).1
  · exact ((C7_reconnect_timer_and_disconnect 5000 ⟨true, true, true, false, []⟩ []).1
      rfl rfl).2
  · exact ((C7_reconnect_timer_and_disconnect 5000 ⟨true, false, true, true, [5000]⟩
      [.close, .errEvt, .close]).2.1 rfl).2
  · exact (C7_reconnect_timer_and_disconnect 5000 ⟨true, true, true, false, []⟩ []).2.2.1
  · exact (C7_reconnect_timer_and_disconnect 5000 ⟨true, false, true, true, [5000]⟩
      []).2.2.2.1
  · exact (C7_reconnect_timer_and_disconnect 5000 ⟨true, false, true, true, [5000]⟩
      [.close, .errEvt, .close]).2.2.2.2.1

/-- C8: a malformed (unparseable) inbound frame, and a well-formed frame
whose type tag is outside the recognized set, are both dropped by
`handleMessage`: no event is emitted (and the handler, a total function
that writes no connection state, neither closes nor throws). -/
theorem C8_malformed_or_unknown_dropped (chains : List Int) (d : InboundData) :
    (d = .malformed → handleMessage chains d = []) ∧
    (∀ t cid p, d = .wellFormed t cid p → ¬ t ∈ recognizedTags →
       handleMessage chains d = []) := by
  constructor
  · rintro rfl
    rfl
  · rintro t cid p rfl hnot
    simp [recognizedTags] at hnot
    obtain ⟨h1, h2, h3, _⟩ := hnot
    simp [handleMessage, h1, h2, h3]

/-- C8 witness: a malformed frame, an unknown-tagged frame, and a frame
with no type tag at all each emit nothing. -/
theorem C8_malformed_or_unknown_dropped_witness :
    handleMessage [98866] .malformed = [] ∧
    handleMessage [98866] (.wellFormed (some "price_update") (some 98866) "x") = [] ∧
    handleMessage [98866] (.wellFormed none none "y") = [] := by
  refine ⟨?_, ?_, ?_⟩
  · exact (C8_malformed_or_unknown_dropped [98866] .malformed).1 rfl
  · exact (C8_malformed_or_unknown_dropped [98866]
      (.wellFormed (some "price_update") (some 98866) "x")).2
      (some "price_update") (some 98866) "x" rfl (by decide)
  · exact (C8_malformed_or_unknown_dropped [98866]
      (.wellFormed none none "y")).2 none none "y" rfl (by decide)

/-- C6: with an always-non-retryable classifier `withRetry` invokes the
operation once and propagates its error with no delay; with an
always-retryable classifier and `maxAttempts = 3`, a persistently failing
operation is invoked exactly 3 times, the waits are the initial delay `d`
and then `min(d·m, cap)`, and the last error propagates. -/
theorem C6_withRetry_attempt_counts :
    (∀ (α : Type) (fn : Nat → Except JsError α) (opts : RetryOptions) (e : JsError),
       opts.retryableErrors = some (fun _ => false) → 1 ≤ opts.maxAttempts →
       fn 1 = .error e →
       withRetry fn opts = (.error e, 1, [])) ∧
    (∀ (α : Type) (fn : Nat → Except JsError α) (opts : RetryOptions)
       (es : Nat → JsError),
       opts.retryableErrors = some (fun _ => true) → opts.maxAttempts = 3 →
       (∀ i, fn i = .error (es i)) →
       withRetry fn opts =
         (.error (es 3), 3,
           [opts.initialDelayMs,
            min (opts.initialDelayMs * opts.backoffMultiplier) opts.maxDelayMs])) := by
  constructor
  · intro α fn opts e hcls hmax hfn
    obtain ⟨M, hM⟩ : ∃ M, opts.maxAttempts = M + 1 :=
      ⟨opts.maxAttempts - 1, by omega⟩
    unfold withRetry
    rw [hcls, hM]
    simp [withRetryGo, hfn]
  · intro α fn opts es hcls hmax hfn
    unfold withRetry
    rw [hcls, hmax]
    simp [withRetryGo, hfn 1, hfn 2, hfn 3]

/-- C6 witness: a non-retryable failure stops after 1 attempt; an
always-retryable persistent failure with max 3, delay 7, multiplier 2,
cap 10 performs 3 attempts waiting 7 then min(14, 10). -/
theorem C6_withRetry_attempt_counts_witness :
    withRetry (fun _ => (.error none : Except JsError Nat))
        { maxAttempts := 1, initialDelayMs := 50, maxDelayMs := 100
          backoffMultiplier := 2, retryableErrors := some (fun _ => false) } =
      (.error none, 1, []) ∧
    withRetry (fun _ => (.error none : Except JsError Nat))
        { maxAttempts := 3, initialDelayMs := 7, maxDelayMs := 10
          backoffMultiplier := 2, retryableErrors := some (fun _ => true) } =
      (.error none, 3, [7, min ((7 : ℚ) * 2) 10]) := by
  constructor
  · exact C6_withRetry_attempt_counts.1 Nat (fun _ => .error none)
      { maxAttempts := 1, initialDelayMs := 50, maxDelayMs := 100
        backoffMultiplier := 2, retryableErrors := some (fun _ => false) }
      none rfl (by decide) rfl
  · exact C6_withRetry_attempt_counts.2 Nat (fun _ => .error none)
      { maxAttempts := 3, initialDelayMs := 7, maxDelayMs := 10
        backoffMultiplier := 2, retryableErrors := some (fun _ => true) }
      (fun _ => none) rfl rfl (fun _ => rfl)

/-- C5 (amended): the submission policy performs 2 attempts (1 retry) —
not 3 — with a 2-second initial delay, 1.5× growth and a 5-second cap,
and classifies a failure as retryable iff its message contains "nonce"
(case-insensitively) or "replacement fee", or its code is `NETWORK_ERROR`
or `TIMEOUT`; under it a persistently failing retryable submission is
attempted exactly twice with a single 2000 ms wait. -/
theorem C5_submission_policy_amended :
    TX_RETRY_DEFAULTS.maxAttempts = 2 ∧
    TX_RETRY_DEFAULTS.initialDelayMs = 2000 ∧
    TX_RETRY_DEFAULTS.backoffMultiplier = 3 / 2 ∧
    TX_RETRY_DEFAULTS.maxDelayMs = 5000 ∧
    TX_RETRY_DEFAULTS.retryableErrors = some isRetryableTxError ∧
    (∀ err : JsErrObj,
       isRetryableTxError (some err) = true ↔
         ((∃ m, err.message = some m ∧ strIncludes (strToLower m) "nonce" = true) ∨
          (∃ m, err.message = some m ∧
             strIncludes (strToLower m) "replacement fee" = true) ∨
          err.code = some "NETWORK_ERROR" ∨ err.code = some "TIMEOUT")) ∧
    isRetryableTxError none = false ∧
    (∀ (α : Type) (fn : Nat → Except JsError α) (es : Nat → JsError),
       (∀ i, fn i = .error (es i)) → (∀ i, isRetryableTxError (es i) = true) →
       withRetry fn TX_RETRY_DEFAULTS = (.error (es 2), 2, [2000])) := by
  refine ⟨rfl, rfl, by norm_num [TX_RETRY_DEFAULTS], rfl, rfl, ?_, rfl, ?_⟩
  · intro err
    obtain ⟨msg, code⟩ := err
    cases msg with
    | none => simp [isRetryableTxError]
    | some m =>
      simp [isRetryableTxError, Bool.or_eq_true, beq_iff_eq]
      tauto
  · intro α fn es hfn hcls
    unfold withRetry TX_RETRY_DEFAULTS
    simp [withRetryGo, hfn 1, hfn 2, hcls 1, hcls 2]

/-- C5 witness: a submission that keeps failing with "nonce too low" is
attempted exactly twice under `TX_RETRY_DEFAULTS`, with one 2000 ms wait,
and the bare `NETWORK_ERROR` classification is exercised through the iff. -/
theorem C5_submission_policy_amended_witness :
    withRetry (fun _ => (.error (some ⟨some "nonce too low", none⟩) : Except JsError Nat))
        TX_RETRY_DEFAULTS =
      (.error (some ⟨some "nonce too low", none⟩), 2, [2000]) ∧
    isRetryableTxError (some ⟨none, some "NETWORK_ERROR"⟩) = true := by
  constructor
  · have hr : isRetryableTxError (some ⟨some "nonce too low", none⟩) = true := by decide
    exact C5_submission_policy_amended.2.2.2.2.2.2.2 Nat
      (fun _ => .error (some ⟨some "nonce too low", none⟩))
      (fun _ => some ⟨some "nonce too low", none⟩)
      (fun _ => rfl) (fun _ => hr)
  · exact (C5_submission_policy_amended.2.2.2.2.2.1 ⟨none, some "NETWORK_ERROR"⟩).mpr
      (by simp)

/-- Everything the TTL pass keeps has age at most the TTL (note: at most —
the pass deletes only strictly older entries). -/
lemma sweepPhase1_age (m : DedupMap) (now : Int) :
    ∀ e ∈ sweepPhase1 m now, now - e.2 ≤ CLEANUP_INTERVAL_MS := by
  intro e he
  have h := (List.mem_filter.mp he).2
  simp only [Bool.not_eq_eq_eq_not, Bool.not_true, decide_eq_false_iff_not] at h
  omega

/-- An entry of age at most the TTL survives the TTL pass. -/
lemma sweepPhase1_keeps (m : DedupMap) (now : Int) (e : String × Int)
    (he : e ∈ m) (hage : now - e.2 ≤ CLEANUP_INTERVAL_MS) :
    e ∈ sweepPhase1 m now := by
  refine List.mem_filter.mpr ⟨he, ?_⟩
  simp only [Bool.not_eq_eq_eq_not, Bool.not_true, decide_eq_false_iff_not]
  omega

/-- The size-bound pass only removes entries. -/
lemma sweepPhase2_subset (l : DedupMap) : ∀ e ∈ sweepPhase2 l, e ∈ l := by
  intro e he
  unfold sweepPhase2 at he
  split at he
  · exact (List.mem_filter.mp he).1
  · exact he

/-- After the size-bound pass at most `MAX_PROCESSED_ENTRIES` entries
remain. -/
lemma sweepPhase2_length (l : DedupMap) :
    (sweepPhase2 l).length ≤ MAX_PROCESSED_ENTRIES := by
  unfold sweepPhase2
  split
  case isTrue hlen =>
    have hperm : (l.insertionSort tsLE).Perm l := List.perm_insertionSort tsLE l
    have hfl : ((l.insertionSort tsLE).filter
        (fun e => !((sweepEvictIds l).contains e.1))).Perm
        (l.filter (fun e => !((sweepEvictIds l).contains e.1))) :=
      hperm.filter _
    set sorted := l.insertionSort tsLE with hsorted
    set k := sorted.length - MAX_PROCESSED_ENTRIES with hk
    have hsplit : sorted.take k ++ sorted.drop k = sorted := List.take_append_drop k sorted
    have htake : (sorted.take k).filter
        (fun e => !((sweepEvictIds l).contains e.1)) = [] := by
      refine List.filter_eq_nil_iff.mpr ?_
      intro e hemem
      have hid : e.1 ∈ sweepEvictIds l := List.mem_map_of_mem Prod.fst hemem
      have hc : (sweepEvictIds l).contains e.1 = true := List.elem_eq_true_of_mem hid
      simp [hc]
      exact hid
    have hlen2 : (sorted.filter (fun e => !((sweepEvictIds l).contains e.1))).length
        ≤ sorted.length - k := by
      calc (sorted.filter (fun e => !((sweepEvictIds l).contains e.1))).length
          = ((sorted.take k ++ sorted.drop k).filter
              (fun e => !((sweepEvictIds l).contains e.1))).length := by rw [hsplit]
        _ = ((sorted.take k).filter (fun e => !((sweepEvictIds l).contains e.1))).length
              + ((sorted.drop k).filter (fun e => !((sweepEvictIds l).contains e.1))).length := by
              rw [List.filter_append, List.length_append]
        _ = ((sorted.drop k).filter (fun e => !((sweepEvictIds l).contains e.1))).length := by
              rw [htake]
              simp
        _ ≤ (sorted.drop k).length := List.length_filter_le _ _
        _ = sorted.length - k := List.length_drop k sorted
    have hlenl : sorted.length = l.length := hperm.length_eq
    have := hfl.length_eq
    omega
  case isFalse hlen => omega

/-- When the size-bound pass evicts an entry (unique keys), every retained
entry's timestamp is at least the evicted one's: eviction is oldest-first. -/
lemma sweepPhase2_oldest_first (l : DedupMap) (hnd : (l.map Prod.fst).Nodup)
    (e : String × Int) (he : e ∈ l) (hout : e ∉ sweepPhase2 l) :
    ∀ e' ∈ sweepPhase2 l, e.2 ≤ e'.2 := by
  intro e' he'
  by_cases hlen : l.length > MAX_PROCESSED_ENTRIES
  case neg =>
    exact absurd (by unfold sweepPhase2; rw [if_neg hlen]; exact he) hout
  case pos =>
    rw [show sweepPhase2 l = l.filter (fun e => !((sweepEvictIds l).contains e.1)) by
      unfold sweepPhase2; rw [if_pos hlen]] at hout he'
    -- the evicted entry is among the taken (oldest) prefix of the sorted list
    have hq : ¬ ((fun e => !((sweepEvictIds l).contains e.1)) e = true) := by
      intro hqe
      exact hout (List.mem_filter.mpr ⟨he, hqe⟩)
    have hid : e.1 ∈ sweepEvictIds l := by
      simp only [Bool.not_eq_eq_eq_not, Bool.not_true, Bool.not_eq_false] at hq
      exact List.mem_of_elem_eq_true hq
    obtain ⟨t, htmem, htid⟩ := List.mem_map.mp hid
    set sorted := l.insertionSort tsLE with hsorted
    set k := sorted.length - MAX_PROCESSED_ENTRIES with hk
    have hperm : sorted.Perm l := List.perm_insertionSort tsLE l
    have htl : t ∈ l := hperm.mem_iff.mp (List.take_subset k sorted htmem)
    have hte : t = e := List.inj_on_of_nodup_map hnd htl he htid
    subst hte
    -- the retained entry is in the dropped (newest) suffix of the sorted list
    have he'l : e' ∈ l := (List.mem_filter.mp he').1
    have hq' : (fun e => !((sweepEvictIds l).contains e.1)) e' = true :=
      (List.mem_filter.mp he').2
    have hid' : e'.1 ∉ sweepEvictIds l := by
      simp only [Bool.not_eq_eq_eq_not, Bool.not_true, Bool.not_eq_true'] at hq'
      intro hmem
      have hc : (sweepEvictIds l).contains e'.1 = true := List.elem_eq_true_of_mem hmem
      rw [hq'] at hc
      exact Bool.false_ne_true hc
    have he'not : e' ∉ sorted.take k := fun hmem =>
      hid' (List.mem_map_of_mem Prod.fst hmem)
    have he'sorted : e' ∈ sorted := hperm.mem_iff.mpr he'l
    have he'drop : e' ∈ sorted.drop k := by
      rcases List.mem_append.mp ((List.take_append_drop k sorted) ▸ he'sorted) with h | h
      · exact absurd h he'not
      · exact h
    -- the sorted prefix is pointwise no newer than the suffix
    have hsort : List.Pairwise tsLE sorted := List.sorted_insertionSort tsLE l
    have hpw : List.Pairwise tsLE (sorted.take k ++ sorted.drop k) := by
      rw [List.take_append_drop]
      exact hsort
    exact (List.pairwise_append.mp hpw).2.2 t htmem e' he'drop

/-- C4 (counterexample): an entry claimed exactly one TTL ago (age =
`CLEANUP_INTERVAL_MS`, i.e. age ≥ TTL) survives the sweep, because the TTL
pass deletes only entries with `timestamp < now - TTL`, strictly. -/
theorem C4_age_equal_ttl_retained_counterexample :
    cleanupProcessedRequests [("a", 0)] 3600000 = [("a", 0)] ∧
    (3600000 : Int) - 0 ≥ CLEANUP_INTERVAL_MS := by
  constructor
  · decide
  · decide

/-- C4 (amended): after the sweep no entry is *strictly older* than the
TTL (entries aged exactly the TTL are retained), the cache holds at most
`MAX_PROCESSED_ENTRIES` entries, and any entry evicted by the size bound
is no newer than every retained entry (oldest-first eviction);
`cleanupProcessedLiquidations` is the same sweep. -/
theorem C4_sweep_amended (m : DedupMap) (now : Int)
    (hkeys : (m.map Prod.fst).Nodup) :
    (∀ e ∈ cleanupProcessedRequests m now, now - e.2 ≤ CLEANUP_INTERVAL_MS) ∧
    (cleanupProcessedRequests m now).length ≤ MAX_PROCESSED_ENTRIES ∧
    (∀ e ∈ m, now - e.2 ≤ CLEANUP_INTERVAL_MS →
       e ∉ cleanupProcessedRequests m now →
       ∀ e' ∈ cleanupProcessedRequests m now, e.2 ≤ e'.2) ∧
    cleanupProcessedLiquidations m now = cleanupProcessedRequests m now := by
  refine ⟨?_, sweepPhase2_length _, ?_, rfl⟩
  · intro e he
    exact sweepPhase1_age m now e (sweepPhase2_subset _ e he)
  · intro e he hage hout e' he'
    have hnd1 : ((sweepPhase1 m now).map Prod.fst).Nodup :=
      hkeys.sublist ((List.filter_sublist m).map Prod.fst)
    exact sweepPhase2_oldest_first (sweepPhase1 m now) hnd1 e
      (sweepPhase1_keeps m now e he hage) hout e' he'

/-- C4 witness: a three-entry cache (one expired, two fresh) swept at a
concrete time keeps only fresh entries, within the bound, oldest-first. -/
theorem C4_sweep_amended_witness :
    (∀ e ∈ cleanupProcessedRequests [("a", 10), ("b", 4000000), ("c", 3999999)] 7000000,
       7000000 - e.2 ≤ CLEANUP_INTERVAL_MS) ∧
    (cleanupProcessedRequests [("a", 10), ("b", 4000000), ("c", 3999999)] 7000000).length
      ≤ MAX_PROCESSED_ENTRIES ∧
    (∀ e ∈ [(("a" : String), (10 : Int)), ("b", 4000000), ("c", 3999999)],
       7000000 - e.2 ≤ CLEANUP_INTERVAL_MS →
       e ∉ cleanupProcessedRequests [("a", 10), ("b", 4000000), ("c", 3999999)] 7000000 →
       ∀ e' ∈ cleanupProcessedRequests [("a", 10), ("b", 4000000), ("c", 3999999)] 7000000,
         e.2 ≤ e'.2) ∧
    cleanupProcessedLiquidations [("a", 10), ("b", 4000000), ("c", 3999999)] 7000000 =
      cleanupProcessedRequests [("a", 10), ("b", 4000000), ("c", 3999999)] 7000000 :=
  C4_sweep_amended [("a", 10), ("b", 4000000), ("c", 3999999)] 7000000 (by decide)

end Octarine
